import Mathlib

/-!
Verification of the trip-accounting helpers of the MatanuskaTpt fleet
dashboard.  The data model and the operations below are shallow
embeddings of the TypeScript source: amounts are rationals, timestamps
and calendar dates are integers (days since the Unix epoch), a field
that can be `null`/`undefined`/non-array at runtime is modelled with an
explicit sum or `Option` type, and a `try`/`catch` whose body cannot
fail in the model is dropped.
-/

namespace Matanuska

/-- Investigation status of a cost entry. -/
inductive InvestigationStatus
  | pending
  | inProgress
  | resolved
  deriving DecidableEq

/-- Supported revenue currencies. -/
inductive Currency
  | USD
  | ZAR
  deriving DecidableEq

/-- Trip lifecycle status. -/
inductive TripStatus
  | active
  | completed
  | invoiced
  | paid
  deriving DecidableEq

/-- One expense line against a trip.  `flaggedAt` is `none` when the
timestamp is absent (the code then falls back to `date`). -/
structure CostEntry where
  amount : ℚ
  isFlagged : Bool
  investigationStatus : InvestigationStatus
  flaggedAt : Option Int
  date : Int
  deriving DecidableEq

/-- An additional cost line; the rollups only read its amount. -/
structure AdditionalCost where
  amount : ℚ
  deriving DecidableEq

/-- The runtime value held in a trip's `costs` field: an actual array of
cost entries, or a malformed value (`null`, `undefined`, or not an
array), which every helper guards against. -/
inductive CostsVal
  | arr (entries : List CostEntry)
  | malformed
  deriving DecidableEq

/-- A trip, restricted to the fields the verified helpers read. -/
structure Trip where
  status : TripStatus
  baseRevenue : Option ℚ
  revenueCurrency : Currency
  costs : CostsVal
  additionalCosts : Option (List AdditionalCost)
  distanceKm : Option ℚ
  fleetNumber : String
  route : String
  driverName : String
  finalOffloadDateTime : Option Int
  actualOffloadDateTime : Option Int
  endDate : Int
  deriving DecidableEq

/-- The cost entries of a trip, empty when the `costs` field is malformed. -/
def costEntriesOf (trip : Trip) : List CostEntry :=
  match trip.costs with
  | .arr entries => entries
  | .malformed => []

/-- The additional costs of a trip, empty when the field is absent. -/
def additionalCostsOf (trip : Trip) : List AdditionalCost :=
  trip.additionalCosts.getD []

/-- `calculateTotalCosts` from `utils/helpers`: returns 0 on a malformed
costs value, otherwise reduces the entry amounts to their sum. -/
def calculateTotalCosts (costs : CostsVal) : ℚ :=
  match costs with
  | .malformed => 0
  | .arr entries => entries.foldl (fun sum c => sum + c.amount) 0

/-- Result record of `calculateKPIs`. -/
structure KPIResult where
  totalRevenue : ℚ
  totalExpenses : ℚ
  netProfit : ℚ
  profitMargin : ℚ
  costPerKm : ℚ
  currency : Currency
  deriving DecidableEq

/-- `calculateKPIs` from `utils/helpers`.  `baseRevenue || 0` becomes
`getD 0`; `trip.additionalCosts?.reduce(...) || 0` becomes a match on
the optional list; `totalRevenue > 0 ? ... : 0` and
`trip.distanceKm && trip.distanceKm > 0 ? ... : 0` become conditionals
(a `distanceKm` of 0 is falsy, and `0 > 0` is false, so the two guards
coincide with `d > 0`). -/
def calculateKPIs (trip : Trip) : KPIResult :=
  let totalRevenue := trip.baseRevenue.getD 0
  let totalExpenses := calculateTotalCosts trip.costs
  let additionalCostsTotal :=
    match trip.additionalCosts with
    | none => 0
    | some l => l.foldl (fun sum c => sum + c.amount) 0
  let totalCosts := totalExpenses + additionalCostsTotal
  let netProfit := totalRevenue - totalCosts
  let profitMargin := if totalRevenue > 0 then netProfit / totalRevenue * 100 else 0
  let costPerKm :=
    match trip.distanceKm with
    | some d => if d > 0 then totalCosts / d else 0
    | none => 0
  { totalRevenue := totalRevenue
    totalExpenses := totalCosts
    netProfit := netProfit
    profitMargin := profitMargin
    costPerKm := costPerKm
    currency := trip.revenueCurrency }

/-- `getFlaggedCostsCount` from `utils/helpers`. -/
def getFlaggedCostsCount (costs : CostsVal) : Nat :=
  match costs with
  | .malformed => 0
  | .arr entries => (entries.filter (fun c => c.isFlagged)).length

/-- `getUnresolvedFlagsCount` from `utils/helpers`: flagged entries whose
investigation status is not `resolved`. -/
def getUnresolvedFlagsCount (costs : CostsVal) : Nat :=
  match costs with
  | .malformed => 0
  | .arr entries =>
      (entries.filter
        (fun c => c.isFlagged && !(c.investigationStatus == InvestigationStatus.resolved))).length

/-- `canCompleteTrip` from `utils/helpers`. -/
def canCompleteTrip (trip : Trip) : Bool :=
  getUnresolvedFlagsCount trip.costs == 0

/-- `shouldAutoCompleteTrip` from `utils/helpers`.  On a malformed costs
value `trip.costs.filter` throws and the surrounding `catch` returns
`false`, hence the `.malformed` branch. -/
def shouldAutoCompleteTrip (trip : Trip) : Bool :=
  if trip.status ≠ TripStatus.active then false
  else
    match trip.costs with
    | .malformed => false
    | .arr entries =>
        let flaggedCosts := entries.filter (fun c => c.isFlagged)
        if flaggedCosts.length == 0 then false
        else getUnresolvedFlagsCount (.arr entries) == 0

/-- Day of week as JavaScript `Date.getDay` yields it for a date `d`
days after the Unix epoch (1970-01-01 was a Thursday): 0 = Sunday, ...,
6 = Saturday. -/
def jsGetDay (d : Int) : Int := (d + 4) % 7

/-- Gregorian calendar year containing epoch day `z` (`Date.getFullYear`
for a date at midnight), by the standard civil-from-days conversion. -/
def getFullYear (z : Int) : Int :=
  let zs := z + 719468
  let era := zs.fdiv 146097
  let doe := zs - era * 146097
  let yoe := (doe - doe.fdiv 1460 + doe.fdiv 36524 - doe.fdiv 146096).fdiv 365
  let y := yoe + era * 400
  let doy := doe - (365 * yoe + yoe.fdiv 4 - yoe.fdiv 100)
  let mp := (5 * doy + 2).fdiv 153
  let m := mp + (if mp < 10 then 3 else -9)
  if m ≤ 2 then y + 1 else y

/-- Epoch day of January 1 of year `y` (`new Date(y, 0, 1)` at
midnight), by the standard days-from-civil conversion. -/
def jan1EpochDay (y : Int) : Int :=
  let yp := y - 1
  let era := yp.fdiv 400
  let yoe := yp - era * 400
  let doe := yoe * 365 + yoe.fdiv 4 - yoe.fdiv 100 + 306
  era * 146097 + doe - 719468

/-- `getWeekNumber` from the year-to-date KPI component:
`Math.ceil((pastDaysOfYear + firstDayOfYear.getDay() + 1) / 7)` where
`pastDaysOfYear` is the day difference from January 1 of the date's
year.  `⌈n/7⌉ = ⌊(n+6)/7⌋` for integers. -/
def getWeekNumber (d : Int) : Int :=
  let jan1 := jan1EpochDay (getFullYear d)
  let pastDaysOfYear := d - jan1
  (pastDaysOfYear + jsGetDay jan1 + 1 + 6).fdiv 7

/-- The "Monday" the weekly aggregator computes for a date:
`monday.setDate(date.getDate() - date.getDay() + 1)` in epoch days. -/
def mondayOfWeekJS (d : Int) : Int := d - jsGetDay d + 1

/-- Week key the weekly aggregator assigns to a trigger date:
`` `${monday.getFullYear()}-W${getWeekNumber(monday)}` `` modelled as
the pair (year, week number). -/
def weekKey (d : Int) : Int × Int :=
  (getFullYear (mondayOfWeekJS d), getWeekNumber (mondayOfWeekJS d))

/-- Trigger date of a trip for weekly bucketing:
`trip.finalOffloadDateTime || trip.actualOffloadDateTime || trip.endDate`. -/
def triggerDate (trip : Trip) : Int :=
  match trip.finalOffloadDateTime with
  | some d => d
  | none =>
      match trip.actualOffloadDateTime with
      | some d => d
      | none => trip.endDate

/-- Filter applied by the weekly aggregator: the trip counts as
completed when its status is completed, invoiced or paid. -/
def isCompletedForWeekly (trip : Trip) : Bool :=
  trip.status == TripStatus.completed || trip.status == TripStatus.invoiced
    || trip.status == TripStatus.paid

/-- Week key the weekly aggregator assigns to a trip. -/
def tripWeekKey (trip : Trip) : Int × Int := weekKey (triggerDate trip)

/-- Monday of the fixed Monday-to-Sunday calendar week containing epoch
day `d`: this is the spec's week window (Monday 00:00 to Sunday 24:00),
against which the aggregator's bucketing is checked. -/
def calendarMonday (d : Int) : Int := d - (jsGetDay d + 6) % 7

/-- `probeDiscrepancy` as computed in the probe verification modal and
in manual diesel entry: litres filled minus the probe reading. -/
def probeDiscrepancy (litresFilled probeReading : ℚ) : ℚ :=
  litresFilled - probeReading

/-- `hasLargeDiscrepancy`: the fixed 50-litre threshold on the magnitude
of the probe discrepancy. -/
def hasLargeDiscrepancy (litresFilled probeReading : ℚ) : Bool :=
  decide (|probeDiscrepancy litresFilled probeReading| > 50)

/-- `validateForm` of the probe verification modal.  `probeInput = none`
models an empty or unparsable probe-reading field (required-field
error); a negative reading is rejected; and when the discrepancy
magnitude exceeds 50 litres, empty verification notes are an error.
The form is valid exactly when no error is recorded. -/
def probeVerificationFormValid (litresFilled : ℚ) (probeInput : Option ℚ)
    (notes : String) : Bool :=
  match probeInput with
  | none => false
  | some p =>
      if p < 0 then false
      else !(hasLargeDiscrepancy litresFilled p && notes == "")

/-- Performance classification of a diesel record. -/
inductive PerformanceStatus
  | poor
  | normal
  | excellent
  deriving DecidableEq

/-- Modelled from the spec: the diesel efficiency evaluator that fills
`DieselRecord.efficiencyVariance` is not under `src/` (only the
`DieselRecord` consumer type is); per the spec,
`efficiencyVariance = (actualKmPerLitre − expectedKmPerLitre) / expectedKmPerLitre × 100`. -/
def efficiencyVariance (actualKmPerLitre expectedKmPerLitre : ℚ) : ℚ :=
  (actualKmPerLitre - expectedKmPerLitre) / expectedKmPerLitre * 100

/-- Modelled from the spec: `performanceStatus` is `poor` if the
variance is below −tolerance, `excellent` if above +tolerance, else
`normal`. -/
def performanceStatus (variance tolerance : ℚ) : PerformanceStatus :=
  if variance < -tolerance then .poor
  else if variance > tolerance then .excellent
  else .normal

/-- Modelled from the spec: `requiresDebrief` is true whenever
`performanceStatus` is `poor` or the variance magnitude exceeds the
tolerance. -/
def requiresDebrief (variance tolerance : ℚ) : Bool :=
  performanceStatus variance tolerance == PerformanceStatus.poor
    || decide (|variance| > tolerance)

/-- A concrete trip with negative base revenue, used to refute the
profit-margin clause of C1 as literally stated. -/
def negativeRevenueTrip : Trip :=
  { status := .active
    baseRevenue := some (-100)
    revenueCurrency := .ZAR
    costs := .arr []
    additionalCosts := none
    distanceKm := none
    fleetNumber := "29H"
    route := "JHB - HRE"
    driverName := "T. Driver"
    finalOffloadDateTime := none
    actualOffloadDateTime := none
    endDate := 0 }

/-- A completed trip whose trigger date is Monday 2024-01-01 (epoch day 19723). -/
def mondayTrip : Trip :=
  { status := .completed
    baseRevenue := some 1000
    revenueCurrency := .ZAR
    costs := .arr []
    additionalCosts := none
    distanceKm := some 100
    fleetNumber := "4H"
    route := "JHB - BLT"
    driverName := "A. Driver"
    finalOffloadDateTime := none
    actualOffloadDateTime := none
    endDate := 19723 }

/-- A completed trip whose trigger date is Sunday 2024-01-07 (epoch day
19729), the last day of the same Monday-to-Sunday week as 2024-01-01. -/
def sundayTrip : Trip :=
  { status := .completed
    baseRevenue := some 2000
    revenueCurrency := .ZAR
    costs := .arr []
    additionalCosts := none
    distanceKm := some 200
    fleetNumber := "6H"
    route := "JHB - HRE"
    driverName := "B. Driver"
    finalOffloadDateTime := none
    actualOffloadDateTime := none
    endDate := 19729 }

/-- A trip whose costs field is malformed and whose base revenue and
additional costs are absent, used for the degraded-input claims. -/
def malformedTrip : Trip :=
  { status := .active
    baseRevenue := none
    revenueCurrency := .USD
    costs := .malformed
    additionalCosts := none
    distanceKm := some 120
    fleetNumber := "21H"
    route := "JHB - GBE"
    driverName := "C. Driver"
    finalOffloadDateTime := none
    actualOffloadDateTime := none
    endDate := 19723 }

/-- An active trip with a single flagged and resolved cost entry: it is
eligible for auto-completion. -/
def autoCompletableTrip : Trip :=
  { status := .active
    baseRevenue := some 500
    revenueCurrency := .ZAR
    costs := .arr [{ amount := 40
                     isFlagged := true
                     investigationStatus := .resolved
                     flaggedAt := some 19700
                     date := 19690 }]
    additionalCosts := none
    distanceKm := some 50
    fleetNumber := "22H"
    route := "JHB - MBA"
    driverName := "D. Driver"
    finalOffloadDateTime := none
    actualOffloadDateTime := none
    endDate := 19723 }

/-- A flagged cost entry enriched (by spread) with the parent trip's
fleet number, route and driver name. -/
structure FlaggedCost where
  cost : CostEntry
  tripFleetNumber : String
  tripRoute : String
  tripDriverName : String
  deriving DecidableEq

/-- Timestamp the sort comparator uses:
`new Date(x.flaggedAt || x.date).getTime()`. -/
def flaggedTime (fc : FlaggedCost) : Int :=
  fc.cost.flaggedAt.getD fc.cost.date

/-- The comparator passed to `sort` by `getAllFlaggedCosts`: pending
entries first, then `flaggedAt` (fallback `date`) descending. -/
def compareFlagged (a b : FlaggedCost) : Int :=
  if a.cost.investigationStatus = InvestigationStatus.pending
      ∧ b.cost.investigationStatus ≠ InvestigationStatus.pending then -1
  else if a.cost.investigationStatus ≠ InvestigationStatus.pending
      ∧ b.cost.investigationStatus = InvestigationStatus.pending then 1
  else flaggedTime b - flaggedTime a

/-- The total preorder induced by the comparator: `a` may be placed
before `b`. -/
def flaggedLE (a b : FlaggedCost) : Prop := compareFlagged a b ≤ 0

instance : DecidableRel flaggedLE := fun a b =>
  inferInstanceAs (Decidable (compareFlagged a b ≤ 0))

/-- Pending-first rank: 0 for a pending entry, 1 otherwise. -/
def pendingRank (fc : FlaggedCost) : Int :=
  if fc.cost.investigationStatus = InvestigationStatus.pending then 0 else 1

instance : IsTotal FlaggedCost flaggedLE :=
  ⟨fun a b => by
    have key : ∀ x y : FlaggedCost, flaggedLE x y ↔
        (pendingRank x < pendingRank y
          ∨ (pendingRank x = pendingRank y ∧ flaggedTime y ≤ flaggedTime x)) := by
      intro x y
      by_cases hx : x.cost.investigationStatus = InvestigationStatus.pending
        <;> by_cases hy : y.cost.investigationStatus = InvestigationStatus.pending
        <;> simp [flaggedLE, compareFlagged, pendingRank, hx, hy]
        <;> omega
    rw [key a b, key b a]
    omega⟩

instance : IsTrans FlaggedCost flaggedLE :=
  ⟨fun a b c hab hbc => by
    have key : ∀ x y : FlaggedCost, flaggedLE x y ↔
        (pendingRank x < pendingRank y
          ∨ (pendingRank x = pendingRank y ∧ flaggedTime y ≤ flaggedTime x)) := by
      intro x y
      by_cases hx : x.cost.investigationStatus = InvestigationStatus.pending
        <;> by_cases hy : y.cost.investigationStatus = InvestigationStatus.pending
        <;> simp [flaggedLE, compareFlagged, pendingRank, hx, hy]
        <;> omega
    rw [key a b] at hab
    rw [key b c] at hbc
    rw [key a c]
    omega⟩

/-- The flagged entries of one trip, in order, enriched with the trip's
fleet number, route and driver name; a malformed costs field is skipped
(the code returns early from the `forEach` callback). -/
def tripFlaggedCosts (trip : Trip) : List FlaggedCost :=
  match trip.costs with
  | .malformed => []
  | .arr entries =>
      (entries.filter (fun c => c.isFlagged)).map
        (fun c => { cost := c
                    tripFleetNumber := trip.fleetNumber
                    tripRoute := trip.route
                    tripDriverName := trip.driverName })

/-- The pre-sort accumulation of `getAllFlaggedCosts`: flagged entries
of all trips, in trip order. -/
def collectFlaggedCosts (trips : List Trip) : List FlaggedCost :=
  trips.flatMap tripFlaggedCosts

/-- The runtime value passed as the `trips` argument: an actual array
or a malformed value. -/
inductive TripsVal
  | arr (trips : List Trip)
  | malformed
  deriving DecidableEq

/-- `getAllFlaggedCosts` from `utils/helpers`: collects every flagged
cost entry enriched with its trip's fields, then sorts with the
pending-first, time-descending comparator.  JavaScript's stable
`Array.prototype.sort` with a comparator consistent with the total
preorder `flaggedLE` is modelled by stable insertion sort. -/
def getAllFlaggedCosts : TripsVal → List FlaggedCost
  | .malformed => []
  | .arr trips => List.insertionSort flaggedLE (collectFlaggedCosts trips)

end Matanuska

namespace Matanuska

/-- Reducing a list with `(sum, c) ↦ sum + f c` from an accumulator `a`
yields `a` plus the sum of the mapped values. -/
theorem foldl_add_map {α : Type} (f : α → ℚ) (l : List α) (a : ℚ) :
    l.foldl (fun sum c => sum + f c) a = a + (l.map f).sum := by
  induction l generalizing a with
  | nil => simp
  | cons x xs ih => simp [List.foldl, ih]; ring

/-- `calculateTotalCosts` on an actual array is the sum of the amounts. -/
theorem calculateTotalCosts_arr (entries : List CostEntry) :
    calculateTotalCosts (.arr entries) = (entries.map CostEntry.amount).sum := by
  simp [calculateTotalCosts, foldl_add_map]

/-- `getUnresolvedFlagsCount` is zero exactly when every flagged entry is resolved. -/
theorem getUnresolvedFlagsCount_eq_zero_iff (entries : List CostEntry) :
    getUnresolvedFlagsCount (.arr entries) = 0 ↔
      ∀ c ∈ entries, c.isFlagged = true →
        c.investigationStatus = InvestigationStatus.resolved := by
  simp [getUnresolvedFlagsCount, List.length_eq_zero, List.filter_eq_nil_iff]

/-- `getFlaggedCostsCount` is nonzero exactly when some entry is flagged. -/
theorem getFlaggedCostsCount_ne_zero_iff (entries : List CostEntry) :
    getFlaggedCostsCount (.arr entries) ≠ 0 ↔ ∃ c ∈ entries, c.isFlagged = true := by
  simp [getFlaggedCostsCount, List.length_eq_zero, List.filter_eq_nil_iff]

/-- C2: for every trip, including trips with an empty cost list,
`canCompleteTrip` returns true iff the number of cost entries that are
flagged and not yet resolved is zero. -/
theorem canCompleteTrip_iff_no_unresolved (trip : Trip) :
    canCompleteTrip trip = true ↔
      ((costEntriesOf trip).filter
        (fun c => c.isFlagged && !(c.investigationStatus == InvestigationStatus.resolved))).length
        = 0 := by
  cases h : trip.costs with
  | arr entries =>
      simp [canCompleteTrip, getUnresolvedFlagsCount, costEntriesOf, h]
  | malformed =>
      simp [canCompleteTrip, getUnresolvedFlagsCount, costEntriesOf, h]

/-- C1 (amended): for every trip, `calculateKPIs` returns `totalExpenses`
equal to the sum of the trip's cost-entry amounts plus the sum of its
`additionalCosts` amounts, `netProfit` equal to `baseRevenue` (0 when
missing) minus that total, `profitMargin` equal to
`netProfit/totalRevenue*100` when `totalRevenue > 0` and 0 otherwise (in
particular whenever `totalRevenue = 0`; no division by zero occurs), and
`costPerKm` equal to `totalExpenses/distanceKm` when `distanceKm > 0`
and 0 otherwise. -/
theorem calculateKPIs_spec (trip : Trip) :
    (calculateKPIs trip).totalRevenue = trip.baseRevenue.getD 0
    ∧ (calculateKPIs trip).totalExpenses =
        ((costEntriesOf trip).map CostEntry.amount).sum
          + ((additionalCostsOf trip).map AdditionalCost.amount).sum
    ∧ (calculateKPIs trip).netProfit =
        trip.baseRevenue.getD 0 - (calculateKPIs trip).totalExpenses
    ∧ (calculateKPIs trip).profitMargin =
        (if 0 < (calculateKPIs trip).totalRevenue then
          (calculateKPIs trip).netProfit / (calculateKPIs trip).totalRevenue * 100
         else 0)
    ∧ (calculateKPIs trip).costPerKm =
        (match trip.distanceKm with
         | some d => if 0 < d then (calculateKPIs trip).totalExpenses / d else 0
         | none => 0) := by
  refine ⟨rfl, ?_, ?_, ?_, ?_⟩
  · cases h : trip.costs with
    | arr entries =>
        cases ha : trip.additionalCosts with
        | none => simp [calculateKPIs, h, ha, calculateTotalCosts_arr, costEntriesOf,
            additionalCostsOf]
        | some l => simp [calculateKPIs, h, ha, calculateTotalCosts_arr, costEntriesOf,
            additionalCostsOf, foldl_add_map]
    | malformed =>
        cases ha : trip.additionalCosts with
        | none => simp [calculateKPIs, h, ha, calculateTotalCosts, costEntriesOf,
            additionalCostsOf]
        | some l => simp [calculateKPIs, h, ha, calculateTotalCosts, costEntriesOf,
            additionalCostsOf, foldl_add_map]
  · rfl
  · rfl
  · rfl

/-- C1 counterexample: on a trip with `baseRevenue = -100` and no costs,
`totalRevenue = -100 ≠ 0`, so the claim requires
`profitMargin = netProfit/totalRevenue*100 = 100`, but the code returns
`profitMargin = 0` (its guard is `totalRevenue > 0`, not
`totalRevenue ≠ 0`). -/
theorem calculateKPIs_profitMargin_counterexample :
    (calculateKPIs negativeRevenueTrip).totalRevenue = -100
    ∧ (calculateKPIs negativeRevenueTrip).totalRevenue ≠ 0
    ∧ (calculateKPIs negativeRevenueTrip).profitMargin = 0
    ∧ (calculateKPIs negativeRevenueTrip).netProfit /
        (calculateKPIs negativeRevenueTrip).totalRevenue * 100 = 100
    ∧ (calculateKPIs negativeRevenueTrip).profitMargin ≠
        (calculateKPIs negativeRevenueTrip).netProfit /
          (calculateKPIs negativeRevenueTrip).totalRevenue * 100 := by
  norm_num [calculateKPIs, calculateTotalCosts, negativeRevenueTrip]

/-- C4: for every trip, `shouldAutoCompleteTrip` returns true iff the
trip is active, has at least one flagged cost entry, and every flagged
entry is resolved; a trip that never had a flagged cost is never
auto-completed. -/
theorem shouldAutoCompleteTrip_iff (trip : Trip) :
    shouldAutoCompleteTrip trip = true ↔
      trip.status = TripStatus.active
      ∧ (∃ c ∈ costEntriesOf trip, c.isFlagged = true)
      ∧ (∀ c ∈ costEntriesOf trip, c.isFlagged = true →
          c.investigationStatus = InvestigationStatus.resolved) := by
  by_cases hst : trip.status = TripStatus.active
  · cases h : trip.costs with
    | arr entries =>
        by_cases hf : (entries.filter (fun c => c.isFlagged)).length = 0
        · have hnone : ¬ ∃ c ∈ entries, c.isFlagged = true := fun hex =>
            (getFlaggedCostsCount_ne_zero_iff entries).mpr hex
              (by simpa [getFlaggedCostsCount] using hf)
          simp [shouldAutoCompleteTrip, h, hst, hf, costEntriesOf, hnone]
        · have hsome : ∃ c ∈ entries, c.isFlagged = true :=
            (getFlaggedCostsCount_ne_zero_iff entries).mp
              (by simpa [getFlaggedCostsCount] using hf)
          simp [shouldAutoCompleteTrip, h, hst, hf, costEntriesOf, hsome,
            getUnresolvedFlagsCount_eq_zero_iff]
    | malformed =>
        simp [shouldAutoCompleteTrip, h, hst, costEntriesOf]
  · simp [shouldAutoCompleteTrip, hst]

/-- C3: the weekly aggregator's Monday computation
`date.getDate() - date.getDay() + 1` maps a Sunday (getDay() = 0) to the
NEXT day, the Monday of the following week.  Concretely: Monday
2024-01-01 and Sunday 2024-01-07 lie in the same fixed Monday-to-Sunday
calendar week (both have calendar Monday 2024-01-01), both trips pass
the completed filter, yet the aggregator assigns week key (2024, 1) to
the first and (2024, 2) to the second, contradicting the claim (and the
code's own `// Get Monday of the week` comment). -/
theorem weeklyAggregator_sunday_wrong_week :
    isCompletedForWeekly mondayTrip = true
    ∧ isCompletedForWeekly sundayTrip = true
    ∧ triggerDate mondayTrip = 19723
    ∧ triggerDate sundayTrip = 19729
    ∧ jsGetDay 19723 = 1
    ∧ jsGetDay 19729 = 0
    ∧ calendarMonday (triggerDate mondayTrip) = calendarMonday (triggerDate sundayTrip)
    ∧ triggerDate mondayTrip ≠ triggerDate sundayTrip
    ∧ tripWeekKey mondayTrip = (2024, 1)
    ∧ tripWeekKey sundayTrip = (2024, 2)
    ∧ tripWeekKey mondayTrip ≠ tripWeekKey sundayTrip := by
  decide

/-- C6: for every diesel verification with a valid (nonnegative) probe
reading, the discrepancy is litres filled minus the probe reading, the
hard-warning flag is raised exactly when its magnitude exceeds 50
litres, a flagged verification cannot be submitted with empty
investigation notes but succeeds with nonempty notes, and at or below 50
litres it succeeds without notes. -/
theorem probeVerification_spec (litresFilled probeReading : ℚ) (notes : String)
    (hp : 0 ≤ probeReading) :
    probeDiscrepancy litresFilled probeReading = litresFilled - probeReading
    ∧ (hasLargeDiscrepancy litresFilled probeReading = true ↔
        |litresFilled - probeReading| > 50)
    ∧ (|litresFilled - probeReading| > 50 →
        probeVerificationFormValid litresFilled (some probeReading) "" = false)
    ∧ (|litresFilled - probeReading| > 50 → notes ≠ "" →
        probeVerificationFormValid litresFilled (some probeReading) notes = true)
    ∧ (|litresFilled - probeReading| ≤ 50 →
        probeVerificationFormValid litresFilled (some probeReading) notes = true) := by
  have hnp : ¬ probeReading < 0 := not_lt.mpr hp
  refine ⟨rfl, by simp [hasLargeDiscrepancy, probeDiscrepancy], ?_, ?_, ?_⟩
  · intro hbig
    simp [probeVerificationFormValid, hnp, hasLargeDiscrepancy, probeDiscrepancy, hbig]
  · intro hbig hnotes
    simp [probeVerificationFormValid, hnp, hasLargeDiscrepancy, probeDiscrepancy, hnotes]
  · intro hsmall
    simp [probeVerificationFormValid, hnp, hasLargeDiscrepancy, probeDiscrepancy,
      not_lt.mpr hsmall]

/-- Witness for C6 at the spec's example: litresFilled = 450,
probeReading = 380 gives discrepancy 70, magnitude above 50, so the
hard warning fires and empty notes block submission, while notes allow it. -/
theorem probeVerification_spec_witness :
    probeDiscrepancy 450 380 = 70
    ∧ hasLargeDiscrepancy 450 380 = true
    ∧ probeVerificationFormValid 450 (some 380) "" = false
    ∧ probeVerificationFormValid 450 (some 380) "investigated" = true := by
  have h := probeVerification_spec 450 380 "investigated" (by norm_num)
  have habs : |(450 : ℚ) - 380| > 50 := by rw [abs_of_nonneg] <;> norm_num
  refine ⟨by norm_num [h.1], h.2.1.mpr habs, h.2.2.1 habs, h.2.2.2.1 habs (by simp)⟩

/-- C7: for every diesel record with known actual km/l and a configured
norm with nonnegative tolerance, the efficiency variance is
`(actual − expected)/expected × 100`, the performance status is `poor`
below −tolerance, `excellent` above +tolerance and `normal` in between,
and a debrief is required exactly when the status is `poor` or the
variance magnitude exceeds the tolerance. -/
theorem dieselEvaluator_spec (actualKmPerLitre expectedKmPerLitre tolerance : ℚ)
    (htol : 0 ≤ tolerance) :
    efficiencyVariance actualKmPerLitre expectedKmPerLitre =
        (actualKmPerLitre - expectedKmPerLitre) / expectedKmPerLitre * 100
    ∧ (performanceStatus (efficiencyVariance actualKmPerLitre expectedKmPerLitre) tolerance
          = PerformanceStatus.poor
        ↔ efficiencyVariance actualKmPerLitre expectedKmPerLitre < -tolerance)
    ∧ (performanceStatus (efficiencyVariance actualKmPerLitre expectedKmPerLitre) tolerance
          = PerformanceStatus.excellent
        ↔ efficiencyVariance actualKmPerLitre expectedKmPerLitre > tolerance)
    ∧ (performanceStatus (efficiencyVariance actualKmPerLitre expectedKmPerLitre) tolerance
          = PerformanceStatus.normal
        ↔ -tolerance ≤ efficiencyVariance actualKmPerLitre expectedKmPerLitre
            ∧ efficiencyVariance actualKmPerLitre expectedKmPerLitre ≤ tolerance)
    ∧ (requiresDebrief (efficiencyVariance actualKmPerLitre expectedKmPerLitre) tolerance = true
        ↔ performanceStatus (efficiencyVariance actualKmPerLitre expectedKmPerLitre) tolerance
            = PerformanceStatus.poor
          ∨ |efficiencyVariance actualKmPerLitre expectedKmPerLitre| > tolerance) := by
  set v := efficiencyVariance actualKmPerLitre expectedKmPerLitre with hv
  refine ⟨rfl, ?_, ?_, ?_, ?_⟩
  · unfold performanceStatus
    by_cases h1 : v < -tolerance
    · simp [h1]
    · by_cases h2 : v > tolerance <;> simp [h1, h2]
  · unfold performanceStatus
    by_cases h1 : v < -tolerance
    · constructor
      · intro h; simp [h1] at h
      · intro h; linarith
    · by_cases h2 : v > tolerance <;> simp [h1, h2]
  · unfold performanceStatus
    by_cases h1 : v < -tolerance
    · constructor
      · intro h; simp [h1] at h
      · intro h; linarith [h.1]
    · by_cases h2 : v > tolerance
      · constructor
        · intro h; simp [h1, h2] at h
        · intro h; linarith [h.2]
      · simp [h1, h2]
        exact ⟨le_of_not_lt (fun hlt => h1 (by linarith)), le_of_not_lt h2⟩
  · simp [requiresDebrief]

/-- Witness for C7 at the spec's example: expected 3.0 km/l, tolerance
10%, actual 2.6 km/l gives variance −40/3 ≈ −13.33%, status `poor` and
a required debrief. -/
theorem dieselEvaluator_spec_witness :
    efficiencyVariance (26/10) 3 = -40/3
    ∧ performanceStatus (efficiencyVariance (26/10) 3) 10 = PerformanceStatus.poor
    ∧ requiresDebrief (efficiencyVariance (26/10) 3) 10 = true := by
  have h := dieselEvaluator_spec (26/10) 3 10 (by norm_num)
  have hvar : efficiencyVariance (26/10) 3 = -40/3 := by
    rw [h.1]; norm_num
  have hpoor : performanceStatus (efficiencyVariance (26/10) 3) 10 = PerformanceStatus.poor := by
    rw [h.2.1, hvar]; norm_num
  exact ⟨hvar, hpoor, h.2.2.2.2.mpr (Or.inl hpoor)⟩

/-- C5: for every list of trips, `getAllFlaggedCosts` returns a
permutation of the flagged cost entries of those trips (so it contains
exactly them), each enriched with the parent trip's fleet number, route
and driver name, and the output is pairwise ordered with pending
entries before all others and, within the same pending class, by
`flaggedAt` (falling back to the cost's `date`) descending. -/
theorem getAllFlaggedCosts_spec (trips : List Trip) :
    (getAllFlaggedCosts (.arr trips)).Perm (collectFlaggedCosts trips)
    ∧ (∀ fc, fc ∈ getAllFlaggedCosts (.arr trips) ↔
        ∃ t ∈ trips, ∃ c ∈ costEntriesOf t, c.isFlagged = true ∧
          fc = { cost := c
                 tripFleetNumber := t.fleetNumber
                 tripRoute := t.route
                 tripDriverName := t.driverName })
    ∧ (getAllFlaggedCosts (.arr trips)).Pairwise (fun a b =>
        (a.cost.investigationStatus = InvestigationStatus.pending
            ∧ b.cost.investigationStatus ≠ InvestigationStatus.pending)
        ∨ ((a.cost.investigationStatus = InvestigationStatus.pending
              ↔ b.cost.investigationStatus = InvestigationStatus.pending)
            ∧ flaggedTime b ≤ flaggedTime a)) := by
  refine ⟨List.perm_insertionSort flaggedLE (collectFlaggedCosts trips), ?_, ?_⟩
  · intro fc
    rw [getAllFlaggedCosts, List.mem_insertionSort, collectFlaggedCosts, List.mem_flatMap]
    constructor
    · rintro ⟨t, ht, hfc⟩
      refine ⟨t, ht, ?_⟩
      cases hcs : t.costs with
      | malformed => simp [tripFlaggedCosts, hcs] at hfc
      | arr entries =>
          simp only [tripFlaggedCosts, hcs, List.mem_map, List.mem_filter] at hfc
          obtain ⟨c, ⟨hc, hflag⟩, rfl⟩ := hfc
          exact ⟨c, by simpa [costEntriesOf, hcs] using hc, by simpa using hflag, rfl⟩
    · rintro ⟨t, ht, c, hc, hflag, rfl⟩
      refine ⟨t, ht, ?_⟩
      cases hcs : t.costs with
      | malformed => simp [costEntriesOf, hcs] at hc
      | arr entries =>
          simp only [tripFlaggedCosts, hcs, List.mem_map, List.mem_filter]
          exact ⟨c, ⟨by simpa [costEntriesOf, hcs] using hc, by simpa using hflag⟩, rfl⟩
  · have hsorted := List.sorted_insertionSort flaggedLE (collectFlaggedCosts trips)
    refine List.Pairwise.imp ?_ hsorted
    intro a b hab
    by_cases hx : a.cost.investigationStatus = InvestigationStatus.pending
      <;> by_cases hy : b.cost.investigationStatus = InvestigationStatus.pending
      <;> simp [flaggedLE, compareFlagged, hx, hy] at hab
      <;> simp [hx, hy]
      <;> omega

/-- C8: on degraded input — a malformed costs value, missing base
revenue, missing additional costs — the rollup helpers return zeroed or
empty results (the functions are total, so no exception reaches the
caller): the cost sum and both flag counts are 0, `calculateKPIs`
returns the zeroed KPI record carrying only the trip's currency, and
`getAllFlaggedCosts` on a malformed trips value returns the empty list. -/
theorem malformedInput_defaults (trip : Trip)
    (hc : trip.costs = CostsVal.malformed)
    (hr : trip.baseRevenue = none)
    (ha : trip.additionalCosts = none) :
    calculateTotalCosts trip.costs = 0
    ∧ getFlaggedCostsCount trip.costs = 0
    ∧ getUnresolvedFlagsCount trip.costs = 0
    ∧ calculateKPIs trip =
        { totalRevenue := 0
          totalExpenses := 0
          netProfit := 0
          profitMargin := 0
          costPerKm := 0
          currency := trip.revenueCurrency }
    ∧ getAllFlaggedCosts TripsVal.malformed = [] := by
  refine ⟨by simp [hc, calculateTotalCosts], by simp [hc, getFlaggedCostsCount],
    by simp [hc, getUnresolvedFlagsCount], ?_, rfl⟩
  cases hd : trip.distanceKm with
  | none => simp [calculateKPIs, hc, hr, ha, hd, calculateTotalCosts]
  | some d => simp [calculateKPIs, hc, hr, ha, hd, calculateTotalCosts]

/-- Witness for C8: the concrete malformed trip evaluates to the zeroed
results. -/
theorem malformedInput_defaults_witness :
    calculateTotalCosts malformedTrip.costs = 0
    ∧ getFlaggedCostsCount malformedTrip.costs = 0
    ∧ getUnresolvedFlagsCount malformedTrip.costs = 0
    ∧ calculateKPIs malformedTrip =
        { totalRevenue := 0
          totalExpenses := 0
          netProfit := 0
          profitMargin := 0
          costPerKm := 0
          currency := malformedTrip.revenueCurrency }
    ∧ getAllFlaggedCosts TripsVal.malformed = [] :=
  malformedInput_defaults malformedTrip rfl rfl rfl

/-- C9: a trip whose costs field is malformed has an unresolved-flag
count of 0, so `canCompleteTrip` is vacuously true: malformed cost data
never blocks the active-to-completed transition. -/
theorem malformedCosts_completion_gate (trip : Trip)
    (hc : trip.costs = CostsVal.malformed) :
    getUnresolvedFlagsCount trip.costs = 0 ∧ canCompleteTrip trip = true := by
  constructor
  · simp [hc, getUnresolvedFlagsCount]
  · simp [canCompleteTrip, hc, getUnresolvedFlagsCount]

/-- Witness for C9 at the concrete malformed trip. -/
theorem malformedCosts_completion_gate_witness :
    getUnresolvedFlagsCount malformedTrip.costs = 0
    ∧ canCompleteTrip malformedTrip = true :=
  malformedCosts_completion_gate malformedTrip rfl

/-- C10: whenever `shouldAutoCompleteTrip` returns true, the trip also
satisfies `canCompleteTrip`, its status is active, and it has at least
one flagged cost entry: auto-completion eligibility is strictly
stronger than manual-completion eligibility. -/
theorem shouldAutoComplete_implies_canComplete (trip : Trip)
    (h : shouldAutoCompleteTrip trip = true) :
    canCompleteTrip trip = true
    ∧ trip.status = TripStatus.active
    ∧ 1 ≤ getFlaggedCostsCount trip.costs := by
  by_cases hst : trip.status = TripStatus.active
  · cases hcs : trip.costs with
    | malformed => simp [shouldAutoCompleteTrip, hst, hcs] at h
    | arr entries =>
        simp only [shouldAutoCompleteTrip, hst, hcs, ne_eq, not_true_eq_false,
          if_false] at h
        by_cases hl : (entries.filter (fun c => c.isFlagged)).length = 0
        · rw [if_pos (by simpa using hl)] at h
          exact absurd h (by simp)
        · rw [if_neg (by simpa using hl)] at h
          have hz : getUnresolvedFlagsCount (CostsVal.arr entries) = 0 := by
            simpa using h
          refine ⟨by simp [canCompleteTrip, hcs, hz], hst, ?_⟩
          have hne : getFlaggedCostsCount (CostsVal.arr entries) ≠ 0 := by
            simpa [getFlaggedCostsCount] using hl
          omega
  · simp [shouldAutoCompleteTrip, hst] at h

/-- Witness for C10 at a concrete auto-completable trip (active, one
flagged cost, all flags resolved). -/
theorem shouldAutoComplete_implies_canComplete_witness :
    canCompleteTrip autoCompletableTrip = true
    ∧ autoCompletableTrip.status = TripStatus.active
    ∧ 1 ≤ getFlaggedCostsCount autoCompletableTrip.costs :=
  shouldAutoComplete_implies_canComplete autoCompletableTrip (by decide)

end Matanuska
